import Mathlib

/-!
# Verification of MarketDataSimulator

A shallow embedding of the MarketDataSimulator repository (src/main.cpp,
src/marketData.cpp, src/marketData.h) together with proofs of the
specification's testable properties.

The C++ `ThreadSafeQueue<T>` holds a `std::queue<T>` and a boolean stop
flag; all operations run under one mutex, so each operation is modelled as
an atomic transformation of the queue state.  A `std::queue` is modelled as
a `List` whose head is the front.  The blocking behaviour of `wait_and_pop`
(the condition-variable wait) is modelled by an outcome constructor
`blocked`, returned exactly when the wait predicate
`!queue_.empty() || stop_requested_` is false; the thrown
`runtime_error("ThreadSafeQueue stopped.")` is modelled by the outcome
`stopped`.

The `MarketDataGenerator` holds a symbol, a `double` current price and a
`long` current volume.  `double` arithmetic is modelled over `ℚ` and `long`
over `ℤ`.  The random draws `priceDist_(priceGen_)` (uniform real in
[-0.5, 0.5]) and `volumeDist_(volumeGen_)` (uniform int in [1, 100]) are
modelled as explicit inputs to `generateTick`, constrained by hypotheses to
their distribution supports where a claim needs them.  Wall-clock
timestamps are irrelevant to every claim and are omitted from the model.
-/

namespace MarketDataSimulator

/-- State of the C++ `ThreadSafeQueue<T>` from src/main.cpp: the underlying
`std::queue<T> queue_` (head of the list = front of the queue) and the flag
`bool stop_requested_ = false`.  The mutex and condition variable have no
state visible to the operations' results and are not part of the model. -/
structure ThreadSafeQueue (T : Type) where
  queue_ : List T
  stop_requested_ : Bool
deriving Repr, DecidableEq

/-- The freshly constructed queue: empty, stop flag false. -/
def ThreadSafeQueue.init (T : Type) : ThreadSafeQueue T :=
  { queue_ := [], stop_requested_ := false }

/-- `push(T value)` from src/main.cpp lines 23-27: appends to the tail of
`queue_`.  (`cv_.notify_one()` has no effect on the modelled state.) -/
def ThreadSafeQueue.push {T : Type} (q : ThreadSafeQueue T) (value : T) :
    ThreadSafeQueue T :=
  { q with queue_ := q.queue_ ++ [value] }

/-- `bool try_pop(T& value)` from src/main.cpp lines 30-38: if `queue_` is
empty return `false` (modelled `none`) leaving the state unchanged;
otherwise move the front out, pop it, return `true` (modelled `some`). -/
def ThreadSafeQueue.try_pop {T : Type} (q : ThreadSafeQueue T) :
    Option T × ThreadSafeQueue T :=
  match q.queue_ with
  | [] => (none, q)
  | v :: rest => (some v, { q with queue_ := rest })

/-- Outcome of `wait_and_pop`: a value was popped, the stop exception was
thrown, or the call blocks on the condition variable. -/
inductive WaitPopOutcome (T : Type) where
  | popped (value : T) (after : ThreadSafeQueue T)
  | stopped
  | blocked
deriving Repr, DecidableEq

/-- `void wait_and_pop(T& value)` from src/main.cpp lines 41-55.
`cv_.wait(lock, [this]{ return !queue_.empty() || stop_requested_; })`
suspends while the predicate is false (modelled `.blocked`); after the wait,
if `stop_requested_ && queue_.empty()` it throws (modelled `.stopped`);
otherwise it moves `queue_.front()` out and pops it. -/
def ThreadSafeQueue.wait_and_pop {T : Type} (q : ThreadSafeQueue T) :
    WaitPopOutcome T :=
  if !(!q.queue_.isEmpty || q.stop_requested_) then
    .blocked
  else if q.stop_requested_ && q.queue_.isEmpty then
    .stopped
  else
    match q.queue_ with
    | [] => .blocked  -- unreachable: the wait predicate forces nonempty here
    | v :: rest => .popped v { q with queue_ := rest }

/-- `void stop()` from src/main.cpp lines 58-62: sets `stop_requested_`.
(`cv_.notify_all()` has no effect on the modelled state.) -/
def ThreadSafeQueue.stop {T : Type} (q : ThreadSafeQueue T) :
    ThreadSafeQueue T :=
  { q with stop_requested_ := true }

/-- Push a whole list of values, in list order. -/
def pushAll {T : Type} (q : ThreadSafeQueue T) (vs : List T) :
    ThreadSafeQueue T :=
  vs.foldl ThreadSafeQueue.push q

/-- Run `try_pop` up to `n` times, collecting the values returned, and
stopping early at the first failed pop. -/
def drainTry {T : Type} : Nat → ThreadSafeQueue T → List T × ThreadSafeQueue T
  | 0, q => ([], q)
  | n + 1, q =>
    match q.try_pop with
    | (some v, q') =>
      let r := drainTry n q'
      (v :: r.1, r.2)
    | (none, _) => ([], q)

/-- Run `wait_and_pop` up to `n` times, collecting the values returned, and
stopping early at the first non-`popped` outcome. -/
def drainWait {T : Type} : Nat → ThreadSafeQueue T → List T × ThreadSafeQueue T
  | 0, q => ([], q)
  | n + 1, q =>
    match q.wait_and_pop with
    | .popped v q' =>
      let r := drainWait n q'
      (v :: r.1, r.2)
    | _ => ([], q)

/-! ## Characterization lemmas for the queue operations -/

theorem try_pop_cons {T : Type} (v : T) (rest : List T) (s : Bool) :
    ThreadSafeQueue.try_pop ⟨v :: rest, s⟩ = (some v, ⟨rest, s⟩) := rfl

theorem try_pop_nil {T : Type} (s : Bool) :
    ThreadSafeQueue.try_pop (T := T) ⟨[], s⟩ = (none, ⟨[], s⟩) := rfl

theorem wait_and_pop_cons {T : Type} (v : T) (rest : List T) (s : Bool) :
    ThreadSafeQueue.wait_and_pop ⟨v :: rest, s⟩ = .popped v ⟨rest, s⟩ := by
  cases s <;> rfl

theorem wait_and_pop_nil_stopped {T : Type} :
    ThreadSafeQueue.wait_and_pop (T := T) ⟨[], true⟩ = .stopped := rfl

theorem wait_and_pop_nil_open {T : Type} :
    ThreadSafeQueue.wait_and_pop (T := T) ⟨[], false⟩ = .blocked := rfl

theorem pushAll_mk {T : Type} (vs l : List T) (s : Bool) :
    pushAll ⟨l, s⟩ vs = ⟨l ++ vs, s⟩ := by
  induction vs generalizing l with
  | nil => simp [pushAll]
  | cons v vs ih =>
    simp [pushAll, ThreadSafeQueue.push, List.foldl_cons] at ih ⊢
    simp [ih]

theorem drainTry_exact {T : Type} (vs : List T) (s : Bool) :
    drainTry vs.length ⟨vs, s⟩ = (vs, ⟨[], s⟩) := by
  induction vs with
  | nil => rfl
  | cons v rest ih =>
    simp [drainTry, try_pop_cons, ih]

theorem drainWait_exact {T : Type} (vs : List T) (s : Bool) :
    drainWait vs.length ⟨vs, s⟩ = (vs, ⟨[], s⟩) := by
  induction vs with
  | nil => rfl
  | cons v rest ih =>
    simp [drainWait, wait_and_pop_cons, ih]

/-! ## Claim C1 -/

/-- **C1.** For every sequence of values pushed into the `ThreadSafeQueue`,
the values returned by successive `wait_and_pop` / `try_pop` calls are
exactly those values in the exact order they were pushed (global FIFO),
each returned exactly once: draining a fresh queue after pushing `vs`
returns exactly `vs` and leaves the queue empty, by either pop operation;
and on any non-empty queue both pop operations return the head (the oldest
pushed value) and remove exactly it. -/
theorem C1_fifo_order {T : Type} (vs : List T) (v : T) (rest : List T)
    (s : Bool) :
    drainTry vs.length (pushAll (ThreadSafeQueue.init T) vs) =
        (vs, ⟨[], false⟩) ∧
      drainWait vs.length (pushAll (ThreadSafeQueue.init T) vs) =
        (vs, ⟨[], false⟩) ∧
      ThreadSafeQueue.try_pop ⟨v :: rest, s⟩ = (some v, ⟨rest, s⟩) ∧
      ThreadSafeQueue.wait_and_pop ⟨v :: rest, s⟩ = .popped v ⟨rest, s⟩ := by
  have hq : pushAll (ThreadSafeQueue.init T) vs = ⟨vs, false⟩ := by
    simpa [ThreadSafeQueue.init] using pushAll_mk vs [] false
  refine ⟨?_, ?_, try_pop_cons v rest s, wait_and_pop_cons v rest s⟩
  · rw [hq]; exact drainTry_exact vs false
  · rw [hq]; exact drainWait_exact vs false

/-! ## Operation sequences on the queue

To express properties of "every subsequent call" we close the queue
operations under arbitrary finite sequences. -/

/-- One call to any of the queue's public operations. -/
inductive QueueOp (T : Type) where
  | push (v : T)
  | tryPop
  | waitPop
  | stop
deriving Repr

/-- State after one operation.  `try_pop` and `wait_and_pop` move to the
post-pop state when they pop; a `wait_and_pop` that throws or blocks leaves
the state unchanged (the C++ throw happens before the queue is touched). -/
def applyOp {T : Type} (q : ThreadSafeQueue T) : QueueOp T → ThreadSafeQueue T
  | .push v => q.push v
  | .tryPop => q.try_pop.2
  | .waitPop =>
    match q.wait_and_pop with
    | .popped _ q' => q'
    | _ => q
  | .stop => q.stop

/-- State after a sequence of operations, applied left to right. -/
def applyOps {T : Type} (q : ThreadSafeQueue T) (ops : List (QueueOp T)) :
    ThreadSafeQueue T :=
  ops.foldl applyOp q

theorem applyOp_preserves_stop {T : Type} (q : ThreadSafeQueue T)
    (op : QueueOp T) (hs : q.stop_requested_ = true) :
    (applyOp q op).stop_requested_ = true := by
  cases op with
  | push v => simpa [applyOp, ThreadSafeQueue.push] using hs
  | tryPop =>
    cases hl : q.queue_ with
    | nil =>
      cases q
      simp_all [applyOp, ThreadSafeQueue.try_pop]
    | cons v rest =>
      cases q
      simp_all [applyOp, ThreadSafeQueue.try_pop]
  | waitPop =>
    cases q with
    | mk l s =>
      cases l with
      | nil => simp_all [applyOp, ThreadSafeQueue.wait_and_pop]
      | cons v rest => simp_all [applyOp, wait_and_pop_cons]
  | stop => simp [applyOp, ThreadSafeQueue.stop]

theorem applyOps_preserves_stop {T : Type} (q : ThreadSafeQueue T)
    (ops : List (QueueOp T)) (hs : q.stop_requested_ = true) :
    (applyOps q ops).stop_requested_ = true := by
  induction ops generalizing q with
  | nil => simpa [applyOps] using hs
  | cons op ops ih =>
    simpa [applyOps, List.foldl_cons] using
      ih (applyOp q op) (applyOp_preserves_stop q op hs)

/-! ## Claim C2 -/

/-- **C2.** If `K` items have been pushed before `stop()` is called, all `K`
are still retrievable via `wait_and_pop` after the stop, in order;
`wait_and_pop` succeeds on any non-empty queue even with the stop flag set;
and only once all `K` items have been drained does `wait_and_pop` signal
the stopped condition. -/
theorem C2_no_loss_across_shutdown {T : Type} (vs : List T) (v : T)
    (rest : List T) :
    drainWait vs.length ((pushAll (ThreadSafeQueue.init T) vs).stop) =
        (vs, ⟨[], true⟩) ∧
      (drainWait vs.length
          ((pushAll (ThreadSafeQueue.init T) vs).stop)).2.wait_and_pop =
        .stopped ∧
      ThreadSafeQueue.wait_and_pop ⟨v :: rest, true⟩ =
        .popped v ⟨rest, true⟩ := by
  have hq : (pushAll (ThreadSafeQueue.init T) vs).stop = ⟨vs, true⟩ := by
    simp [ThreadSafeQueue.init, pushAll_mk, ThreadSafeQueue.stop]
  refine ⟨?_, ?_, wait_and_pop_cons v rest true⟩
  · rw [hq]; exact drainWait_exact vs true
  · rw [hq, drainWait_exact vs true]
    exact wait_and_pop_nil_stopped

/-! ## Claim C3 -/

/-- **C3.** After `stop()` has been called, every `wait_and_pop` made while
the queue is empty fails with the stopped condition (it does not return a
value and does not block), and this holds after any further sequence of
operations, since no operation ever clears the stop flag. -/
theorem C3_stopped_and_empty_terminates {T : Type} (q : ThreadSafeQueue T)
    (ops : List (QueueOp T)) (hs : q.stop_requested_ = true)
    (he : (applyOps q ops).queue_ = []) :
    (applyOps q ops).stop_requested_ = true ∧
      (applyOps q ops).wait_and_pop = .stopped := by
  have hflag := applyOps_preserves_stop q ops hs
  refine ⟨hflag, ?_⟩
  cases hq : applyOps q ops with
  | mk l s =>
    rw [hq] at he hflag
    simp at he hflag
    subst he; subst hflag
    exact wait_and_pop_nil_stopped

/-- Witness for C3 at a concrete stopped queue and operation sequence that
empties it (push 7 onto a stopped queue holding 3, pop twice, then attempt
one more wait_and_pop). -/
theorem C3_stopped_and_empty_terminates_witness :
    (applyOps (⟨[3], true⟩ : ThreadSafeQueue Nat)
          [.push 7, .waitPop, .tryPop, .waitPop]).stop_requested_ = true ∧
      (applyOps (⟨[3], true⟩ : ThreadSafeQueue Nat)
          [.push 7, .waitPop, .tryPop, .waitPop]).wait_and_pop =
        .stopped :=
  C3_stopped_and_empty_terminates ⟨[3], true⟩
    [.push 7, .waitPop, .tryPop, .waitPop] rfl (by decide)

/-! ## Claim C4 -/

/-- **C4.** `push` always succeeds in both queue states: it appends the
value at the tail and leaves the stop flag unchanged; `stop` discards
nothing; and a value pushed after `stop()` is still enqueued and still
returned by a later `wait_and_pop` or `try_pop` (draining a stopped queue
after one more push yields all pending values followed by the new one). -/
theorem C4_push_always_succeeds {T : Type} (q : ThreadSafeQueue T) (v : T)
    (vs : List T) :
    (q.push v).queue_ = q.queue_ ++ [v] ∧
      (q.push v).stop_requested_ = q.stop_requested_ ∧
      q.stop.queue_ = q.queue_ ∧
      (q.stop.push v).queue_ = q.queue_ ++ [v] ∧
      ((pushAll (ThreadSafeQueue.init T) vs).stop.push v).try_pop.1 =
        (vs ++ [v]).head? ∧
      drainWait (vs.length + 1)
          ((pushAll (ThreadSafeQueue.init T) vs).stop.push v) =
        (vs ++ [v], ⟨[], true⟩) := by
  have hq : (pushAll (ThreadSafeQueue.init T) vs).stop.push v =
      ⟨vs ++ [v], true⟩ := by
    simp [ThreadSafeQueue.init, pushAll_mk, ThreadSafeQueue.stop,
      ThreadSafeQueue.push]
  refine ⟨rfl, rfl, rfl, rfl, ?_, ?_⟩
  · rw [hq]
    cases vs <;> simp [ThreadSafeQueue.try_pop]
  · rw [hq]
    have := drainWait_exact (vs ++ [v]) true
    simpa using this

/-! ## Claim C7 -/

/-- **C7.** `try_pop` never blocks and never fails with an error: on a
non-empty queue it returns the head item and removes it; on an empty queue
it returns the "no item" outcome (`none`) immediately with the state
unchanged, regardless of the stop flag. -/
theorem C7_try_pop_nonblocking {T : Type} (v : T) (rest : List T)
    (s : Bool) :
    ThreadSafeQueue.try_pop ⟨v :: rest, s⟩ = (some v, ⟨rest, s⟩) ∧
      ThreadSafeQueue.try_pop (T := T) ⟨[], s⟩ = (none, ⟨[], s⟩) :=
  ⟨try_pop_cons v rest s, try_pop_nil s⟩

/-! ## Claim C8 -/

/-- **C8.** `stop()` is idempotent: in every queue state, calling it twice
leaves the queue exactly as calling it once — the stop flag is set and the
pending item sequence is untouched by `stop`. -/
theorem C8_stop_idempotent {T : Type} (q : ThreadSafeQueue T) :
    q.stop.stop = q.stop ∧
      q.stop.stop_requested_ = true ∧
      q.stop.queue_ = q.queue_ :=
  ⟨rfl, rfl, rfl⟩

/-! ## The market data generator (src/marketData.h, src/marketData.cpp)

`double` arithmetic is modelled over `ℚ`, `long` over `ℤ`.  The wall-clock
timestamp field of `MarketDataTick` is irrelevant to every claim and is
omitted. -/

/-- `MarketDataTick` from src/marketData.h lines 9-17 (timestamp omitted). -/
structure MarketDataTick where
  symbol : String
  price : ℚ
  volume : ℤ
deriving Repr, DecidableEq

/-- The mutable state of `MarketDataGenerator` from src/marketData.h lines
20-41.  The two Mersenne-twister engines and distributions carry no state
relevant to the claims: their draws are modelled as explicit inputs to
`generateTick`. -/
structure MarketDataGenerator where
  symbol_ : String
  currentPrice_ : ℚ
  currentVolume_ : ℤ
deriving Repr, DecidableEq

/-- The `MarketDataGenerator` constructor from src/marketData.cpp lines
29-37: stores the symbol and the initial price and volume unchanged.  It
applies no clamping. -/
def MarketDataGenerator.create (symbol : String) (initialPrice : ℚ)
    (initialVolume : ℤ) : MarketDataGenerator :=
  { symbol_ := symbol,
    currentPrice_ := initialPrice,
    currentVolume_ := initialVolume }

/-- `generateTick()` from src/marketData.cpp lines 43-62.  The two random
draws are explicit inputs: `dp` models `priceDist_(priceGen_)` (uniform
real on [-0.5, 0.5]) and `dv` models `volumeDist_(volumeGen_)` (uniform
int on [1, 100]); hypotheses restrict them to these supports where a claim
needs it.  `currentPrice_ += dp * 0.1`, clamped below at 0.01;
`currentVolume_ += dv`, clamped below at 1; the returned tick reads the
clamped state. -/
def MarketDataGenerator.generateTick (g : MarketDataGenerator) (dp : ℚ)
    (dv : ℤ) : MarketDataTick × MarketDataGenerator :=
  let price1 := g.currentPrice_ + dp * (1 / 10)
  let price2 := if price1 < 1 / 100 then 1 / 100 else price1
  let vol1 := g.currentVolume_ + dv
  let vol2 := if vol1 < 1 then 1 else vol1
  ({ symbol := g.symbol_, price := price2, volume := vol2 },
   { g with currentPrice_ := price2, currentVolume_ := vol2 })

/-- The condition of the volume clamp branch `if (currentVolume_ < 1)` in
`generateTick` (src/marketData.cpp line 54), evaluated on the incremented
volume `currentVolume_ + dv`. -/
def volumeClampTaken (g : MarketDataGenerator) (dv : ℤ) : Bool :=
  g.currentVolume_ + dv < 1

/-- Run `generateTick` once for each pair of draws in `ds`, threading the
generator state; returns the ticks in call order and the final state. -/
def runGen (g : MarketDataGenerator) :
    List (ℚ × ℤ) → List MarketDataTick × MarketDataGenerator
  | [] => ([], g)
  | d :: ds =>
    let r := g.generateTick d.1 d.2
    let rest := runGen r.2 ds
    (r.1 :: rest.1, rest.2)

/-! ### Single-step facts about generateTick -/

theorem generateTick_price_ge (g : MarketDataGenerator) (dp : ℚ) (dv : ℤ) :
    1 / 100 ≤ (g.generateTick dp dv).2.currentPrice_ := by
  simp only [MarketDataGenerator.generateTick]
  split
  · exact le_refl _
  · linarith [not_lt.mp (by assumption : ¬g.currentPrice_ + dp * (1 / 10) < 1 / 100)]

theorem generateTick_vol_ge_one (g : MarketDataGenerator) (dp : ℚ)
    (dv : ℤ) : 1 ≤ (g.generateTick dp dv).2.currentVolume_ := by
  simp only [MarketDataGenerator.generateTick]
  split
  · exact le_refl _
  · omega

theorem generateTick_tick_eq_state (g : MarketDataGenerator) (dp : ℚ)
    (dv : ℤ) :
    (g.generateTick dp dv).1.price = (g.generateTick dp dv).2.currentPrice_ ∧
      (g.generateTick dp dv).1.volume =
        (g.generateTick dp dv).2.currentVolume_ ∧
      (g.generateTick dp dv).1.symbol = g.symbol_ ∧
      (g.generateTick dp dv).2.symbol_ = g.symbol_ :=
  ⟨rfl, rfl, rfl, rfl⟩

theorem generateTick_vol_increases (g : MarketDataGenerator) (dp : ℚ)
    (dv : ℤ) (hdv : 1 ≤ dv) :
    g.currentVolume_ < (g.generateTick dp dv).2.currentVolume_ := by
  simp only [MarketDataGenerator.generateTick]
  split
  · omega
  · omega

/-! ### Facts about whole runs -/

theorem runGen_tick_floors (g : MarketDataGenerator) (ds : List (ℚ × ℤ))
    (t : MarketDataTick) (ht : t ∈ (runGen g ds).1) :
    1 / 100 ≤ t.price ∧ 1 ≤ t.volume := by
  induction ds generalizing g with
  | nil => simp [runGen] at ht
  | cons d ds ih =>
    simp only [runGen, List.mem_cons] at ht
    rcases ht with rfl | ht
    · have hp := generateTick_price_ge g d.1 d.2
      have hv := generateTick_vol_ge_one g d.1 d.2
      have he := generateTick_tick_eq_state g d.1 d.2
      exact ⟨he.1 ▸ hp, he.2.1 ▸ hv⟩
    · exact ih _ ht

theorem runGen_final_vol_ge_one (g : MarketDataGenerator)
    (ds : List (ℚ × ℤ)) (hg : 1 ≤ g.currentVolume_) :
    1 ≤ (runGen g ds).2.currentVolume_ := by
  induction ds generalizing g with
  | nil => simpa [runGen] using hg
  | cons d ds ih =>
    simpa [runGen] using ih _ (generateTick_vol_ge_one g d.1 d.2)

theorem runGen_volume_chain (g : MarketDataGenerator) (ds : List (ℚ × ℤ))
    (hds : ∀ d ∈ ds, 1 ≤ d.2) :
    List.Chain' (fun a b => a ≤ b)
      (g.currentVolume_ :: ((runGen g ds).1.map MarketDataTick.volume)) := by
  induction ds generalizing g with
  | nil => simp [runGen]
  | cons d ds ih =>
    have hd : 1 ≤ d.2 := hds d (List.mem_cons_self d ds)
    have hstep := generateTick_vol_increases g d.1 d.2 hd
    have heq := (generateTick_tick_eq_state g d.1 d.2).2.1
    have htail := ih (g.generateTick d.1 d.2).2
      (fun e he => hds e (List.mem_cons_of_mem d he))
    simp only [runGen, List.map_cons, List.chain'_cons]
    exact ⟨heq ▸ le_of_lt hstep, heq ▸ htail⟩

/-! ## Claim C5 -/

/-- **C5 counterexample.** The claim as stated quantifies over every number
of `generateTick` calls including zero, and asserts the internal state
satisfies the 0.01 price floor.  But the constructor clamps nothing: a
generator constructed with `initialPrice = 1/200` (which is `> 0`) and
`initialVolume = 1` (which is `≥ 1`) has, before any call, an internal
price `1/200 < 1/100`. -/
theorem C5_counterexample :
    (0 : ℚ) < 1 / 200 ∧ (1 : ℤ) ≥ 1 ∧
      (MarketDataGenerator.create "X" (1 / 200) 1).currentPrice_ <
        1 / 100 := by
  refine ⟨by norm_num, le_refl 1, ?_⟩
  norm_num [MarketDataGenerator.create]

/-- **C5 (amended).** For every generator and every sequence of
`generateTick` calls, every returned tick has price ≥ the epsilon floor
0.01 and volume ≥ 1, and the internal state after each call satisfies the
same floors (the clamps enforce this regardless of the draws); a price
perturbation that would take the price below the floor is clamped to
exactly the floor.  Before the first call the internal state carries the
constructor arguments unclamped, so the floors are only guaranteed from
the first call on. -/
theorem C5_generator_floors (g : MarketDataGenerator) (ds : List (ℚ × ℤ))
    (dp : ℚ) (dv : ℤ) (t : MarketDataTick) (ht : t ∈ (runGen g ds).1) :
    1 / 100 ≤ t.price ∧ 1 ≤ t.volume ∧
      1 / 100 ≤ (g.generateTick dp dv).2.currentPrice_ ∧
      1 ≤ (g.generateTick dp dv).2.currentVolume_ ∧
      (g.currentPrice_ + dp * (1 / 10) < 1 / 100 →
        (g.generateTick dp dv).1.price = 1 / 100) := by
  obtain ⟨h1, h2⟩ := runGen_tick_floors g ds t ht
  refine ⟨h1, h2, generateTick_price_ge g dp dv,
    generateTick_vol_ge_one g dp dv, fun hlow => ?_⟩
  show (if g.currentPrice_ + dp * (1 / 10) < 1 / 100 then (1 : ℚ) / 100
      else g.currentPrice_ + dp * (1 / 10)) = 1 / 100
  rw [if_pos hlow]

/-- Witness for C5 at a concrete generator and draw list, including a draw
that triggers the price clamp. -/
theorem C5_generator_floors_witness :
    1 / 100 ≤ (MarketDataTick.mk "TEST" (1 / 100) 3).price ∧
      1 ≤ (MarketDataTick.mk "TEST" (1 / 100) 3).volume ∧
      1 / 100 ≤ ((MarketDataGenerator.create "TEST" (2 / 100) 1).generateTick
          (-1 / 2) 2).2.currentPrice_ ∧
      1 ≤ ((MarketDataGenerator.create "TEST" (2 / 100) 1).generateTick
          (-1 / 2) 2).2.currentVolume_ ∧
      ((MarketDataGenerator.create "TEST" (2 / 100) 1).currentPrice_ +
            (-1 / 2) * (1 / 10) < 1 / 100 →
        ((MarketDataGenerator.create "TEST" (2 / 100) 1).generateTick
            (-1 / 2) 2).1.price = 1 / 100) := by
  have h := C5_generator_floors (MarketDataGenerator.create "TEST" (2 / 100) 1)
    [(-1 / 2, 2)] (-1 / 2) 2 (MarketDataTick.mk "TEST" (1 / 100) 3)
    (by simp [runGen, MarketDataGenerator.generateTick,
      MarketDataGenerator.create]; norm_num)
  exact h

/-! ## Claim C6 -/

/-- **C6.** Over a generator's lifetime, the volumes of successive ticks
returned by `generateTick` are monotonically non-decreasing: with every
volume draw in the distribution's strictly positive support (≥ 1), each
tick's volume is ≥ the previous tick's volume, since the volume is never
decremented. -/
theorem C6_volume_monotone (g : MarketDataGenerator) (ds : List (ℚ × ℤ))
    (hds : ∀ d ∈ ds, 1 ≤ d.2) :
    List.Chain' (fun a b => a ≤ b)
      ((runGen g ds).1.map MarketDataTick.volume) :=
  (runGen_volume_chain g ds hds).tail

/-- Witness for C6 on a concrete generator and draw list. -/
theorem C6_volume_monotone_witness :
    List.Chain' (fun a b => a ≤ b)
      ((runGen (MarketDataGenerator.create "GOOG" 150 1000)
          [(1 / 2, 3), (-1 / 2, 1), (0, 100)]).1.map
        MarketDataTick.volume) :=
  C6_volume_monotone (MarketDataGenerator.create "GOOG" 150 1000)
    [(1 / 2, 3), (-1 / 2, 1), (0, 100)] (by decide)

/-! ## Claim C10 -/

/-- **C10.** The volume clamp branch in `generateTick` is dead code under
the constructor precondition `initialVolume ≥ 1`: on every state reachable
by any run whose volume draws lie in the support [1, 100], the incremented
volume is ≥ previous volume + 1 ≥ 2, so the guard `currentVolume_ < 1`
(tested after the increment) is never true. -/
theorem C10_volume_clamp_dead (g : MarketDataGenerator)
    (ds : List (ℚ × ℤ)) (dp : ℚ) (dv : ℤ) (hg : 1 ≤ g.currentVolume_)
    (_hds : ∀ d ∈ ds, 1 ≤ d.2) (hdv : 1 ≤ dv) :
    volumeClampTaken (runGen g ds).2 dv = false ∧
      (runGen g ds).2.currentVolume_ + 1 ≤
        ((runGen g ds).2.generateTick dp dv).2.currentVolume_ ∧
      2 ≤ ((runGen g ds).2.generateTick dp dv).2.currentVolume_ := by
  have hvol := runGen_final_vol_ge_one g ds hg
  have hguard : ¬((runGen g ds).2.currentVolume_ + dv < 1) := by omega
  refine ⟨by simpa [volumeClampTaken] using hguard, ?_, ?_⟩ <;>
    · show _ ≤ (if (runGen g ds).2.currentVolume_ + dv < 1 then (1 : ℤ)
          else (runGen g ds).2.currentVolume_ + dv)
      rw [if_neg hguard]
      omega

/-- Witness for C10 on a concrete generator and draw list. -/
theorem C10_volume_clamp_dead_witness :
    volumeClampTaken
        (runGen (MarketDataGenerator.create "AAPL" (175 + 1 / 2) 1200)
          [(0, 1), (1 / 4, 100)]).2 1 = false ∧
      (runGen (MarketDataGenerator.create "AAPL" (175 + 1 / 2) 1200)
            [(0, 1), (1 / 4, 100)]).2.currentVolume_ + 1 ≤
        ((runGen (MarketDataGenerator.create "AAPL" (175 + 1 / 2) 1200)
              [(0, 1), (1 / 4, 100)]).2.generateTick 0 1).2.currentVolume_ ∧
      2 ≤ ((runGen (MarketDataGenerator.create "AAPL" (175 + 1 / 2) 1200)
            [(0, 1), (1 / 4, 100)]).2.generateTick 0 1).2.currentVolume_ :=
  C10_volume_clamp_dead (MarketDataGenerator.create "AAPL" (175 + 1 / 2) 1200)
    [(0, 1), (1 / 4, 100)] 0 1 (by decide) (by decide) (by decide)

/-! ## The simulation driver (main, src/main.cpp lines 108-166) -/

/-- One simulation step: the inner loop `for (auto& generator : generators)`
of src/main.cpp lines 139-151, invoking each generator once in vector
order and collecting the resulting ticks in the order they are pushed,
together with the updated generator states.  `draws i` supplies the random
values for the generator at position `i`. -/
def simStep (draws : Nat → ℚ × ℤ) :
    List MarketDataGenerator → Nat →
      List MarketDataTick × List MarketDataGenerator
  | [], _ => ([], [])
  | g :: gs, i =>
    let r := g.generateTick (draws i).1 (draws i).2
    let rest := simStep draws gs (i + 1)
    (r.1 :: rest.1, r.2 :: rest.2)

/-- The outer simulation loop `for (int step = 0; ...)` of src/main.cpp
lines 138-153: run `n` steps from step index `step`, threading the
generator states, returning every tick in global push order.  `F s i`
supplies the random draws for generator `i` at step `s`.  (The sleep
between steps has no effect on the pushed sequence.) -/
def runSim (F : Nat → Nat → ℚ × ℤ) :
    List MarketDataGenerator → Nat → Nat → List MarketDataTick
  | _, _, 0 => []
  | gens, step, n + 1 =>
    let r := simStep (F step) gens 0
    r.1 ++ runSim F r.2 (step + 1) n

theorem simStep_symbols (draws : Nat → ℚ × ℤ)
    (gs : List MarketDataGenerator) (i : Nat) :
    (simStep draws gs i).1.map MarketDataTick.symbol =
        gs.map MarketDataGenerator.symbol_ ∧
      (simStep draws gs i).2.map MarketDataGenerator.symbol_ =
        gs.map MarketDataGenerator.symbol_ := by
  induction gs generalizing i with
  | nil => simp [simStep]
  | cons g gs ih =>
    obtain ⟨h1, h2⟩ := ih (i + 1)
    refine ⟨?_, ?_⟩ <;>
      simp [simStep, h1, h2, generateTick_tick_eq_state]

theorem simStep_length (draws : Nat → ℚ × ℤ)
    (gs : List MarketDataGenerator) (i : Nat) :
    (simStep draws gs i).1.length = gs.length ∧
      (simStep draws gs i).2.length = gs.length := by
  induction gs generalizing i with
  | nil => simp [simStep]
  | cons g gs ih =>
    obtain ⟨h1, h2⟩ := ih (i + 1)
    exact ⟨by simp [simStep, h1], by simp [simStep, h2]⟩

theorem runSim_symbols (F : Nat → Nat → ℚ × ℤ)
    (gens : List MarketDataGenerator) (step n : Nat) :
    (runSim F gens step n).map MarketDataTick.symbol =
      (List.replicate n
        (gens.map MarketDataGenerator.symbol_)).flatten := by
  induction n generalizing gens step with
  | zero => simp [runSim]
  | succ n ih =>
    obtain ⟨h1, h2⟩ := simStep_symbols (F step) gens 0
    simp [runSim, List.replicate_succ, ih (simStep (F step) gens 0).2
      (step + 1), h1, h2]

/-! ## Claim C9 -/

/-- **C9.** The simulation loop invokes every generator exactly once per
step, in construction order, pushing each tick immediately: over `n` steps
with generators `gens`, the symbols of the pushed ticks are the generator
symbols repeated in order, step after step (`G1..Gg, G1..Gg, ...`); the
number of pushed ticks is `n * |gens|`; and, by the queue's FIFO delivery,
draining the queue after pushing them all returns them in exactly the push
order. -/
theorem C9_interleave_order (F : Nat → Nat → ℚ × ℤ)
    (gens : List MarketDataGenerator) (n : Nat) :
    (runSim F gens 0 n).map MarketDataTick.symbol =
        (List.replicate n (gens.map MarketDataGenerator.symbol_)).flatten ∧
      (runSim F gens 0 n).length = n * gens.length ∧
      drainWait (runSim F gens 0 n).length
          (pushAll (ThreadSafeQueue.init MarketDataTick)
            (runSim F gens 0 n)) =
        (runSim F gens 0 n, ⟨[], false⟩) := by
  refine ⟨runSim_symbols F gens 0 n, ?_, ?_⟩
  · have := runSim_symbols F gens 0 n
    have hlen := congrArg List.length this
    simpa [List.length_flatten, Nat.mul_comm] using hlen
  · have hq : pushAll (ThreadSafeQueue.init MarketDataTick)
        (runSim F gens 0 n) = ⟨runSim F gens 0 n, false⟩ := by
      simpa [ThreadSafeQueue.init] using
        pushAll_mk (runSim F gens 0 n) [] false
    rw [hq]
    exact drainWait_exact _ false

end MarketDataSimulator
